import Mathlib

/-!
Shallow embedding of `src/SentimentAnalysisPractice.py`, a single-pass
pandas/NLP pipeline over the Avatar dialogue dataset:

  load → aggregate by (book_num, chapter_num, imdb_rating) →
  normalize text → VADER polarity scoring → arousal/valence stage →
  positional merge.

Machine strings are modelled at the character level (`List Char` inside
`String`); Python's ASCII-range `str.lower`, the regex `[^\w\s]` strip,
whitespace tokenization, and `" ".join` are each given explicit executable
definitions below. Rational numbers stand in for the float columns.
-/

/-! ### Character-level model of the text operations -/

/-- ASCII model of Python `str.lower` (the dataset's text is ASCII): each of
the 26 uppercase letters maps to its lowercase form, everything else is
unchanged. -/
def lowerOf : Char → Char
  | 'A' => 'a' | 'B' => 'b' | 'C' => 'c' | 'D' => 'd' | 'E' => 'e'
  | 'F' => 'f' | 'G' => 'g' | 'H' => 'h' | 'I' => 'i' | 'J' => 'j'
  | 'K' => 'k' | 'L' => 'l' | 'M' => 'm' | 'N' => 'n' | 'O' => 'o'
  | 'P' => 'p' | 'Q' => 'q' | 'R' => 'r' | 'S' => 's' | 'T' => 't'
  | 'U' => 'u' | 'V' => 'v' | 'W' => 'w' | 'X' => 'x' | 'Y' => 'y'
  | 'Z' => 'z'
  | c => c

/-- The whitespace class `\s` of Python's `re` module (ASCII range):
space, tab, newline, carriage return, vertical tab, form feed. -/
def isSpaceChar (c : Char) : Bool :=
  c = ' ' || c = '\t' || c = '\n' || c = '\r' || c = Char.ofNat 11 || c = Char.ofNat 12

/-- The word class `\w` of Python's `re` module (ASCII range):
letters, digits, underscore. -/
def isWordChar (c : Char) : Bool :=
  c.isAlphanum || c = '_'

/-- A character survives `re.sub(r'[^\w\s]', '', text)` iff it is a word
character or a whitespace character. -/
def keepChar (c : Char) : Bool :=
  isWordChar c || isSpaceChar c

/-- Model of `text.lower()` (line 41). -/
def pyLower (s : String) : String :=
  ⟨s.data.map lowerOf⟩

/-- Model of `re.sub(r'[^\w\s]', '', text)` (line 42). -/
def stripPunct (s : String) : String :=
  ⟨s.data.filter keepChar⟩

/-- Splits a character list at whitespace, dropping empty pieces; `acc`
holds the (reversed) characters of the word currently being read. -/
def wordsAux : List Char → List Char → List (List Char)
  | [], acc => if acc.isEmpty then [] else [acc.reverse]
  | c :: cs, acc =>
    if isSpaceChar c then
      if acc.isEmpty then wordsAux cs [] else acc.reverse :: wordsAux cs []
    else
      wordsAux cs (c :: acc)

/-- Model of the spacy tokenizer `nlp(text)` (line 46) as applied to the
already lowercased, punctuation-free strings the script feeds it: such a
string tokenizes at whitespace boundaries. -/
def pyTokens (s : String) : List String :=
  (wordsAux s.data []).map String.mk

/-- Interleaves a single `' '` between consecutive word fragments. -/
def unwordsChars : List (List Char) → List Char
  | [] => []
  | [w] => w
  | w :: ws => w ++ ' ' :: unwordsChars ws

/-- Model of Python `" ".join(nlp_tokens)` (line 48). -/
def pyJoinSp (ts : List String) : String :=
  ⟨unwordsChars (ts.map String.data)⟩

/-- The lowercase + punctuation-strip prefix of the cleaning loop
(lines 41-42), the string the stopword membership test inspects. -/
def cleanedPre (t : String) : String :=
  stripPunct (pyLower t)

/-- One full pass of the cleaning step of the normalizer (lines 41-48,
without the stopword row filter): lowercase, strip non-word/non-space
characters, tokenize, rejoin with single spaces. -/
def cleanText (t : String) : String :=
  pyJoinSp (pyTokens (cleanedPre t))

/-- The character-level composite of the cleaning step: lowercase, keep
word/space characters, split at whitespace, interleave single spaces. -/
def cleanChars (l : List Char) : List Char :=
  unwordsChars (wordsAux ((l.map lowerOf).filter keepChar) [])

/-- The 26 lowercase ASCII letters, the image of `lowerOf` on uppercase. -/
def lowercaseLetters : List Char :=
  ['a', 'b', 'c', 'd', 'e', 'f', 'g', 'h', 'i', 'j', 'k', 'l', 'm',
   'n', 'o', 'p', 'q', 'r', 's', 't', 'u', 'v', 'w', 'x', 'y', 'z']

/-- The NLTK English stopword list, `nltk.corpus.stopwords.words('english')`
(line 44), an external data resource of the library; apostrophes are written
as `\x27`. -/
def stop_words : List String :=
  ["i", "me", "my", "myself", "we", "our", "ours", "ourselves", "you",
   "you\x27re", "you\x27ve", "you\x27ll", "you\x27d", "your", "yours",
   "yourself", "yourselves", "he", "him", "his", "himself", "she",
   "she\x27s", "her", "hers", "herself", "it", "it\x27s", "its", "itself",
   "they", "them", "their", "theirs", "themselves", "what", "which", "who",
   "whom", "this", "that", "that\x27ll", "these", "those", "am", "is",
   "are", "was", "were", "be", "been", "being", "have", "has", "had",
   "having", "do", "does", "did", "doing", "a", "an", "the", "and", "but",
   "if", "or", "because", "as", "until", "while", "of", "at", "by", "for",
   "with", "about", "against", "between", "into", "through", "during",
   "before", "after", "above", "below", "to", "from", "up", "down", "in",
   "out", "on", "off", "over", "under", "again", "further", "then", "once",
   "here", "there", "when", "where", "why", "how", "all", "any", "both",
   "each", "few", "more", "most", "other", "some", "such", "no", "nor",
   "not", "only", "own", "same", "so", "than", "too", "very", "s", "t",
   "can", "will", "just", "don", "don\x27t", "should", "should\x27ve",
   "now", "d", "ll", "m", "o", "re", "ve", "y", "ain", "aren",
   "aren\x27t", "couldn", "couldn\x27t", "didn", "didn\x27t", "doesn",
   "doesn\x27t", "hadn", "hadn\x27t", "hasn", "hasn\x27t", "haven",
   "haven\x27t", "isn", "isn\x27t", "ma", "mightn", "mightn\x27t",
   "mustn", "mustn\x27t", "needn", "needn\x27t", "shan", "shan\x27t",
   "shouldn", "shouldn\x27t", "wasn", "wasn\x27t", "weren", "weren\x27t",
   "won", "won\x27t", "wouldn", "wouldn\x27t"]

/-- The text normalizer loop (lines 39-48): for each episode text,
lowercase and strip punctuation; if the resulting whole string is not a
stopword, tokenize it and append the space-joined tokens to the output —
otherwise the row is silently dropped. -/
def filtered_text (ts : List String) : List String :=
  ts.filterMap fun t =>
    if cleanedPre t ∈ stop_words then none
    else some (cleanText t)

/-! ### Data model and aggregator -/

/-- One row of the loaded `avatar` table, restricted to the columns the
pipeline reads. -/
structure AvatarRow where
  book_num : Int
  chapter_num : Int
  imdb_rating : Rat
  character_words : String
deriving DecidableEq, Repr

/-- The grouping key of line 23: `(book_num, chapter_num, imdb_rating)`. -/
def rowKey (r : AvatarRow) : Int × Int × Rat :=
  (r.book_num, r.chapter_num, r.imdb_rating)

/-- One row of the aggregated `new_df` table (lines 23-24). -/
structure NewRow where
  book_num : Int
  chapter_num : Int
  imdb_rating : Rat
  character_words : String
  season_episode : String
deriving DecidableEq, Repr

/-- Lexicographic comparison of grouping keys, the ascending sort order the
pandas `groupby` applies to the group keys. -/
def keyLeB (a b : Int × Int × Rat) : Bool :=
  if a.1 ≠ b.1 then decide (a.1 ≤ b.1)
  else if a.2.1 ≠ b.2.1 then decide (a.2.1 ≤ b.2.1)
  else decide (a.2.2 ≤ b.2.2)

/-- Insertion into a key list sorted by `keyLeB`. -/
def insertKey (x : Int × Int × Rat) : List (Int × Int × Rat) → List (Int × Int × Rat)
  | [] => [x]
  | y :: ys => if keyLeB x y then x :: y :: ys else y :: insertKey x ys

/-- Insertion sort of grouping keys by `keyLeB`. -/
def sortKeys : List (Int × Int × Rat) → List (Int × Int × Rat)
  | [] => []
  | x :: xs => insertKey x (sortKeys xs)

/-- Per-group reduction of `['character_words'].sum()` (line 23): string
concatenation of the group's texts in source row order, no separator. -/
def groupConcat (rows : List AvatarRow) (k : Int × Int × Rat) : String :=
  String.join ((rows.filter fun r => decide (rowKey r = k)).map (·.character_words))

/-- Builds one aggregated row for grouping key `k`: the key columns, the
concatenated text, and the `season-episode` identifier of line 24,
`str(book_num) + '-' + str(chapter_num)`. -/
def mkNewRow (rows : List AvatarRow) (k : Int × Int × Rat) : NewRow :=
  { book_num := k.1
    chapter_num := k.2.1
    imdb_rating := k.2.2
    character_words := groupConcat rows k
    season_episode := toString k.1 ++ "-" ++ toString k.2.1 }

/-- The aggregator (lines 23-24):
`avatar.groupby(['book_num','chapter_num','imdb_rating'])['character_words'].sum().reset_index()`
— one output row per distinct key, keys in ascending order, each group's
texts concatenated in source row order — followed by the `season-episode`
column assignment. -/
def new_df (rows : List AvatarRow) : List NewRow :=
  (sortKeys ((rows.map rowKey).dedup)).map (mkNewRow rows)

/-! ### Sentiment scorer (lines 56-83)

The VADER `SentimentIntensityAnalyzer` is an external library resource, not
code of this repository; it is modelled here from the spec's description
(§4.4, §8 P3, glossary): a rule-based lexicon analyzer that decomposes a
text into negative/neutral/positive proportions plus a normalized compound
score. The model follows the library's published scoring shape: per-token
lexicon valences; the positive / negative / neutral mass proportions with
the library's plus-or-minus-one shift; and a normalized compound score.
Rationals replace floats, and the compound normalization x/sqrt(x^2+15) is
replaced by the rational normalization x/(|x|+1), which is likewise odd,
monotone and (-1,1)-valued. -/

/-- The four polarity scores returned by `sentiment.polarity_scores`. -/
structure PolarityScores where
  neg : Rat
  neu : Rat
  pos : Rat
  compound : Rat
deriving DecidableEq, Repr

/-- Modelled from the spec: a representative finite fragment of the VADER
valence lexicon (an external data file; valences lie in [-4, 4]). -/
def vaderLexicon : List (String × Rat) :=
  [("good", ⟨19, 10, by decide, by decide⟩),
   ("great", ⟨31, 10, by decide, by decide⟩),
   ("love", ⟨16, 5, by decide, by decide⟩),
   ("happy", ⟨27, 10, by decide, by decide⟩),
   ("nice", ⟨9, 5, by decide, by decide⟩),
   ("bad", ⟨-5, 2, by decide, by decide⟩),
   ("terrible", ⟨-21, 10, by decide, by decide⟩),
   ("hate", ⟨-27, 10, by decide, by decide⟩),
   ("awful", ⟨-2, 1, by decide, by decide⟩),
   ("sad", ⟨-21, 10, by decide, by decide⟩)]

/-- Valence of one token: its lexicon entry, `0` for words absent from the
lexicon (the library's neutral default, spec §4.4). -/
def lexValence (w : String) : Rat :=
  (vaderLexicon.lookup w).getD 0

/-- Modelled from the spec: `sentiment.polarity_scores(txt)` (line 70).
Token valences are read off the lexicon; `posSum` adds `v + 1` over the
positive valences, `negSum` adds `v - 1` over the negative ones, `neuCount`
counts the zero-valence tokens; the three proportions divide by
`posSum + |negSum| + neuCount`, and the compound score is the normalized
total valence. An empty token list yields all zeros. -/
def polarity_scores (text : String) : PolarityScores :=
  let vals := (pyTokens text).map lexValence
  if vals.isEmpty then ⟨0, 0, 0, 0⟩
  else
    let sumS := vals.sum
    let posSum := ((vals.filter fun v => decide (0 < v)).map (fun v => v + 1)).sum
    let negSum := ((vals.filter fun v => decide (v < 0)).map (fun v => v - 1)).sum
    let neuCount := ((vals.filter fun v => decide (v = 0)).length : Rat)
    let total := posSum + |negSum| + neuCount
    { neg := |negSum / total|
      neu := |neuCount / total|
      pos := |posSum / total|
      compound := sumS / (|sumS| + 1) }

/-- One row of the `sentiment_data` table (lines 67-83). -/
structure SentimentRow where
  id : Nat
  negative_score : Rat
  neutral_score : Rat
  positive_score : Rat
  compound_score : Rat
  character_words : String
deriving DecidableEq, Repr

/-- The polarity-scoring loop (lines 67-83): one row per cleaned text, `id`
the positional index. -/
def sentiment_data (texts : List String) : List SentimentRow :=
  texts.enum.map fun p =>
    { id := p.1
      negative_score := (polarity_scores p.2).neg
      neutral_score := (polarity_scores p.2).neu
      positive_score := (polarity_scores p.2).pos
      compound_score := (polarity_scores p.2).compound
      character_words := p.2 }

/-! ### Arousal/valence stage (lines 86-97) and merger (lines 99-107) -/

/-- One row of the `other_data` table (lines 92-96). -/
structure OtherRow where
  valence : Rat
  arousal : Rat
  description : String
deriving DecidableEq, Repr

/-- Modelled from the spec: the binding of the Python name `s` consulted at
lines 90-91. The source neither defines nor imports `s` (spec §9 calls it
an undefined object), so the name environment carries no binding for it. -/
def sBinding : Option (List String → Rat × Rat × String) :=
  none

/-- The message of the unbound-name fault Python raises at line 90. -/
def nameErrorS : String :=
  "NameError: name \x27s\x27 is not defined"

/-- The arousal/valence loop (lines 86-97): per cleaned text, the body
evaluates `s.sentiment(terms)`; resolving the name `s` fails on the first
iteration, so any nonempty input faults. (With a bound `s` the loop would
collect one valence/arousal/description row per text.) -/
def other_data : List String → Except String (List OtherRow)
  | [] => .ok []
  | txt :: rest =>
    match sBinding with
    | none => .error nameErrorS
    | some f =>
      match other_data rest with
      | .error e => .error e
      | .ok os =>
        .ok ({ valence := (f (pyTokens txt)).1
               arousal := (f (pyTokens txt)).2.1
               description := (f (pyTokens txt)).2.2 } :: os)

/-- One row of the final merged table (lines 101-107 plus the
`sentiment_data` columns). -/
structure FinalRow where
  id : Nat
  negative_score : Rat
  neutral_score : Rat
  positive_score : Rat
  compound_score : Rat
  character_words : String
  arousal_score : Rat
  valence_score : Rat
  description : String
  imdb_rating : Rat
  season : Int
deriving DecidableEq, Repr

/-- One pandas column assignment `df['col'] = series` between frames that
both carry the default positional index: row `i` of the frame is paired
with element `i` of the series. -/
def addCol (t : List α) (c : List β) : List (α × β) :=
  t.zip c

/-- The merger (lines 101-107): five successive positional column
assignments onto `sentiment_data` — arousal, valence, description from
`other_data`, then `imdb_rating` and `book_num` (as `season`) from
`new_df` — no join key anywhere. -/
def finalTable (sdata : List SentimentRow) (odata : List OtherRow) (ndf : List NewRow) :
    List FinalRow :=
  (addCol (addCol (addCol (addCol (addCol sdata (odata.map (·.arousal)))
      (odata.map (·.valence))) (odata.map (·.description)))
      (ndf.map (·.imdb_rating))) (ndf.map (·.book_num))).map fun q =>
    { id := q.1.1.1.1.1.id
      negative_score := q.1.1.1.1.1.negative_score
      neutral_score := q.1.1.1.1.1.neutral_score
      positive_score := q.1.1.1.1.1.positive_score
      compound_score := q.1.1.1.1.1.compound_score
      character_words := q.1.1.1.1.1.character_words
      arousal_score := q.1.1.1.1.2
      valence_score := q.1.1.1.2
      description := q.1.1.2
      imdb_rating := q.1.2
      season := q.2 }

/-- The texts the normalizer hands to the scoring stages, as produced from
the aggregated table. -/
def pipelineTexts (rows : List AvatarRow) : List String :=
  filtered_text ((new_df rows).map (·.character_words))

/-- The whole run, from the loaded rows to the final in-memory table.
An empty cleaned-text table already faults at the diagnostic access
`filter_text_df.filtered_text[0]` (line 59); otherwise the run reaches the
arousal/valence stage, whose outcome decides the rest. -/
def pipeline (rows : List AvatarRow) : Except String (List FinalRow) :=
  let texts := pipelineTexts rows
  if texts.isEmpty then .error "AttributeError: filtered_text"
  else
    match other_data texts with
    | .error e => .error e
    | .ok odata => .ok (finalTable (sentiment_data texts) odata (new_df rows))

/-! ### The CSV side effect (line 25) -/

/-- A CSV file as a list of records, each record a list of cell strings
(numeric cell rendering abstracted by `toString`). -/
abbrev Csv := List (List String)

/-- The working directory: file names to CSV contents. -/
abbrev FileSys := String → Option Csv

/-- The header `new_df.to_csv` emits: pandas writes the default integer
index as a leading column with an empty header name, then the five data
columns. -/
def csvHeader : List String :=
  ["", "book_num", "chapter_num", "imdb_rating", "character_words", "season-episode"]

/-- The records of `new_df.to_csv('new.df.csv')` (line 25): the header,
then one record per row led by its positional index. -/
def csvRecords (ndf : List NewRow) : Csv :=
  csvHeader :: ndf.enum.map fun p =>
    [toString p.1, toString p.2.book_num, toString p.2.chapter_num,
     toString p.2.imdb_rating, p.2.character_words, p.2.season_episode]

/-- Writing a file: the named entry is replaced outright, present or not
(pandas `to_csv` default mode `w`). -/
def writeCsv (fs : FileSys) (name : String) (contents : Csv) : FileSys :=
  fun n => if n = name then some contents else fs n

/-- The aggregator's side effect on the working directory (line 25). -/
def saveStep (fs : FileSys) (rows : List AvatarRow) : FileSys :=
  writeCsv fs "new.df.csv" (csvRecords (new_df rows))

/-! ### Concrete inputs used by the individual claims -/

/-- The rational literal 8.5. -/
def rat_8_5 : Rat := ⟨17, 2, by decide, by decide⟩

/-- The spec's two-row example scenario (§8). -/
def exampleRows : List AvatarRow :=
  [⟨1, 1, rat_8_5, "Hello world."⟩, ⟨1, 2, 9, "Goodbye world."⟩]

/-- A one-row input whose episode text cleans to the stopword `"i"`. -/
def stopwordRows : List AvatarRow :=
  [⟨1, 1, 8, "i"⟩]

/-- Two dialogue rows of one episode whose texts abut without a space. -/
def fuseRows : List AvatarRow :=
  [⟨1, 1, 8, "hello"⟩, ⟨1, 1, 8, "world"⟩]

/-- A one-row input for the identifier-format instance. -/
def idRows : List AvatarRow :=
  [⟨2, 3, 7, "x"⟩]

/-- A one-row input reaching the arousal/valence stage. -/
def crashRows : List AvatarRow :=
  [⟨1, 1, 8, "water"⟩]

/-- Concrete one-row intermediate tables for the merger instance. -/
def mergeS : SentimentRow := ⟨0, 0, 1, 0, 0, "hi"⟩

/-- Concrete arousal/valence row for the merger instance. -/
def mergeO : OtherRow := ⟨0, 0, "neutral"⟩

/-- Concrete aggregator row for the merger instance. -/
def mergeN : NewRow := ⟨1, 1, 8, "hi", "1-1"⟩

/-! ## Supporting lemmas -/

theorem lowerOf_mem_or (c : Char) : lowerOf c ∈ lowercaseLetters ∨ lowerOf c = c := by
  unfold lowerOf
  split <;> first | (left; decide) | (right; rfl)

theorem lowerOf_fix_of_lower : ∀ d ∈ lowercaseLetters, lowerOf d = d := by decide

theorem lowerOf_idem (c : Char) : lowerOf (lowerOf c) = lowerOf c := by
  rcases lowerOf_mem_or c with h | h
  · exact lowerOf_fix_of_lower _ h
  · rw [h]; exact h

theorem wordsAux_sound :
    ∀ (m acc : List Char), (∀ c ∈ acc, isSpaceChar c = false) →
      ∀ w ∈ wordsAux m acc, w ≠ [] ∧ ∀ c ∈ w, isSpaceChar c = false := by
  intro m
  induction m with
  | nil =>
    intro acc hacc w hw
    cases acc with
    | nil => simp [wordsAux] at hw
    | cons a as =>
      simp [wordsAux] at hw
      subst hw
      refine ⟨by simp, fun c hc => hacc c (by rw [← List.reverse_cons] at hc; exact List.mem_reverse.mp hc)⟩
  | cons c cs ih =>
    intro acc hacc w hw
    by_cases hsp : isSpaceChar c = true
    · cases acc with
      | nil =>
        simp [wordsAux, hsp] at hw
        exact ih [] (by simp) w hw
      | cons a as =>
        simp [wordsAux, hsp] at hw
        rcases hw with hw | hw
        · subst hw
          refine ⟨by simp, fun d hd => hacc d (by rw [← List.reverse_cons] at hd; exact List.mem_reverse.mp hd)⟩
        · exact ih [] (by simp) w hw
    · rw [Bool.not_eq_true] at hsp
      simp [wordsAux, hsp] at hw
      refine ih (c :: acc) ?_ w hw
      intro d hd
      rcases List.mem_cons.mp hd with rfl | hd
      · exact hsp
      · exact hacc d hd

theorem wordsAux_subset :
    ∀ (m acc w : List Char), w ∈ wordsAux m acc → ∀ c ∈ w, c ∈ m ∨ c ∈ acc := by
  intro m
  induction m with
  | nil =>
    intro acc w hw c hc
    cases acc with
    | nil => simp [wordsAux] at hw
    | cons a as =>
      simp [wordsAux] at hw
      subst hw
      exact Or.inr (by rw [← List.reverse_cons] at hc; exact List.mem_reverse.mp hc)
  | cons b cs ih =>
    intro acc w hw c hc
    by_cases hsp : isSpaceChar b = true
    · cases acc with
      | nil =>
        simp [wordsAux, hsp] at hw
        rcases ih [] w hw c hc with h | h
        · exact Or.inl (by simp [h])
        · simp at h
      | cons a as =>
        simp [wordsAux, hsp] at hw
        rcases hw with hw | hw
        · subst hw
          exact Or.inr (by rw [← List.reverse_cons] at hc; exact List.mem_reverse.mp hc)
        · rcases ih [] w hw c hc with h | h
          · exact Or.inl (by simp [h])
          · simp at h
    · rw [Bool.not_eq_true] at hsp
      simp [wordsAux, hsp] at hw
      rcases ih (b :: acc) w hw c hc with h | h
      · exact Or.inl (by simp [h])
      · rcases List.mem_cons.mp h with rfl | h
        · exact Or.inl (by simp)
        · exact Or.inr h

theorem wordsAux_append :
    ∀ (w rest acc : List Char), (∀ c ∈ w, isSpaceChar c = false) →
      wordsAux (w ++ rest) acc = wordsAux rest (w.reverse ++ acc) := by
  intro w
  induction w with
  | nil => intro rest acc _; simp
  | cons c w ihw =>
    intro rest acc h
    have hc : isSpaceChar c = false := h c (by simp)
    rw [List.cons_append, show wordsAux (c :: (w ++ rest)) acc = wordsAux (w ++ rest) (c :: acc) by simp [wordsAux, hc]]
    rw [ihw rest (c :: acc) (fun d hd => h d (by simp [hd]))]
    simp [List.reverse_cons, List.append_assoc]

theorem unwordsChars_cons_cons (w v : List Char) (vs : List (List Char)) :
    unwordsChars (w :: v :: vs) = w ++ ' ' :: unwordsChars (v :: vs) := rfl

theorem wordsAux_unwordsChars :
    ∀ ws : List (List Char),
      (∀ w ∈ ws, w ≠ [] ∧ ∀ c ∈ w, isSpaceChar c = false) →
      wordsAux (unwordsChars ws) [] = ws := by
  intro ws
  induction ws with
  | nil => intro _; rfl
  | cons w ws ih =>
    intro h
    have hw := h w (by simp)
    cases ws with
    | nil =>
      show wordsAux w [] = [w]
      conv_lhs => rw [← List.append_nil w]
      rw [wordsAux_append w [] [] hw.2]
      have hrev : (w.reverse ++ []).isEmpty = false := by
        simp [List.isEmpty_iff, hw.1]
      simp [wordsAux, hrev, hw.1]
    | cons v vs =>
      rw [unwordsChars_cons_cons, wordsAux_append w (' ' :: unwordsChars (v :: vs)) [] hw.2]
      have hsp : isSpaceChar ' ' = true := by decide
      have hrev : (w.reverse ++ []).isEmpty = false := by
        simp [List.isEmpty_iff, hw.1]
      simp only [wordsAux, hsp, hrev, if_true, if_false, Bool.false_eq_true]
      rw [ih (fun u hu => h u (by simp [hu]))]
      simp

theorem mem_unwordsChars :
    ∀ (ws : List (List Char)) (c : Char), c ∈ unwordsChars ws → c = ' ' ∨ ∃ w ∈ ws, c ∈ w := by
  intro ws
  induction ws with
  | nil => intro c hc; simp [unwordsChars] at hc
  | cons w ws ih =>
    intro c hc
    cases ws with
    | nil =>
      right
      exact ⟨w, by simp, by simpa [unwordsChars] using hc⟩
    | cons v vs =>
      rw [unwordsChars_cons_cons] at hc
      rcases List.mem_append.mp hc with hw | hrest
      · right; exact ⟨w, by simp, hw⟩
      · rcases List.mem_cons.mp hrest with rfl | hu
        · left; rfl
        · rcases ih c hu with h | ⟨u, hu1, hu2⟩
          · left; exact h
          · right; exact ⟨u, by simp [hu1], hu2⟩

theorem mem_cleanChars (l : List Char) (c : Char) (hc : c ∈ cleanChars l) :
    keepChar c = true ∧ lowerOf c = c := by
  rcases mem_unwordsChars _ c hc with rfl | ⟨w, hw, hcw⟩
  · exact ⟨by decide, by decide⟩
  · rcases wordsAux_subset _ [] w hw c hcw with hm | hm
    · have h1 : keepChar c = true := (List.mem_filter.mp hm).2
      have h2 : c ∈ l.map lowerOf := (List.mem_filter.mp hm).1
      rcases List.mem_map.mp h2 with ⟨d, _, rfl⟩
      exact ⟨h1, lowerOf_idem d⟩
    · simp at hm

theorem map_lowerOf_cleanChars (l : List Char) :
    (cleanChars l).map lowerOf = cleanChars l := by
  rw [show (cleanChars l).map lowerOf = (cleanChars l).map id from
    List.map_congr_left (fun c hc => (mem_cleanChars l c hc).2), List.map_id]

theorem filter_keepChar_cleanChars (l : List Char) :
    (cleanChars l).filter keepChar = cleanChars l :=
  List.filter_eq_self.mpr (fun c hc => by simpa using (mem_cleanChars l c hc).1)

theorem cleanChars_idem (l : List Char) : cleanChars (cleanChars l) = cleanChars l := by
  have key : ∀ m : List Char,
      cleanChars m = unwordsChars (wordsAux ((m.map lowerOf).filter keepChar) []) :=
    fun _ => rfl
  have hws : ∀ w ∈ wordsAux ((l.map lowerOf).filter keepChar) [],
      w ≠ [] ∧ ∀ c ∈ w, isSpaceChar c = false :=
    wordsAux_sound _ [] (by simp)
  rw [key (cleanChars l), map_lowerOf_cleanChars, filter_keepChar_cleanChars, key l,
    wordsAux_unwordsChars _ hws]

theorem map_data_comp_mk : ∀ ws : List (List Char),
    ws.map (String.data ∘ String.mk) = ws
  | [] => rfl
  | w :: ws => by
    rw [List.map_cons, map_data_comp_mk ws]; rfl

theorem cleanText_data (t : String) : (cleanText t).data = cleanChars t.data := by
  show (pyJoinSp (pyTokens (cleanedPre t))).data = _
  simp [pyJoinSp, pyTokens, cleanedPre, stripPunct, pyLower, cleanChars, map_data_comp_mk]


theorem length_insertKey (x : Int × Int × Rat) :
    ∀ l, (insertKey x l).length = l.length + 1
  | [] => rfl
  | y :: ys => by
    simp only [insertKey]
    split
    · rfl
    · simp [length_insertKey x ys]

theorem length_sortKeys : ∀ l, (sortKeys l).length = l.length
  | [] => rfl
  | x :: xs => by simp [sortKeys, length_insertKey, length_sortKeys xs]

/-! ## The claims -/

/-- C6: applying the text normalizer's cleaning step (lowercase, strip
non-word/non-space characters, tokenize, rejoin with single spaces) to a
string that is already normalized yields that same string: normalized
output is a fixed point of the cleaning step. -/
theorem c6_normalizer_idempotent (t : String) :
    cleanText (cleanText t) = cleanText t := by
  apply String.ext
  rw [cleanText_data, cleanText_data, cleanChars_idem]

/-- C1 as stated is false: on the one-row input whose episode text is
`"i"`, the cleaned string equals a stopword, the normalizer drops the row,
and its output is shorter than the aggregator output. -/
theorem c1_alignment_counterexample :
    ¬ ((filtered_text ((new_df stopwordRows).map (·.character_words))).length
        = (new_df stopwordRows).length) := by decide

/-- C1 (amended): the normalizer preserves row count and row order exactly
when no input row's lowercased, punctuation-stripped text equals a
stopword; in that case the i-th output is the cleaning of the i-th input. -/
theorem c1_alignment_amended (ts : List String)
    (h : ∀ t ∈ ts, cleanedPre t ∉ stop_words) :
    filtered_text ts = ts.map cleanText := by
  induction ts with
  | nil => rfl
  | cons t ts ih =>
    have h1 : cleanedPre t ∉ stop_words := h t (by simp)
    have h2 := ih (fun u hu => h u (by simp [hu]))
    simp only [filtered_text, List.filterMap_cons, if_neg h1, List.map_cons]
    rw [← h2]
    rfl

/-- Instance of the amended C1 at the spec's first example row. -/
theorem c1_alignment_amended_witness :
    filtered_text ["Hello world."] = ["Hello world."].map cleanText :=
  c1_alignment_amended _ (by decide)

/-- C2: the aggregator emits exactly one row per distinct
(book_num, chapter_num, imdb_rating) key combination of the input. -/
theorem c2_grouping_count (rows : List AvatarRow) :
    (new_df rows).length = ((rows.map rowKey).toFinset).card := by
  rw [List.card_toFinset, new_df, List.length_map, length_sortKeys]

/-- C3: every aggregator output row's season-episode identifier is the
decimal rendering of its season, a hyphen, then its chapter. -/
theorem c3_identifier_format (rows : List AvatarRow) (r : NewRow)
    (hr : r ∈ new_df rows) :
    r.season_episode = toString r.book_num ++ "-" ++ toString r.chapter_num := by
  rcases List.mem_map.mp hr with ⟨k, _, rfl⟩
  rfl

/-- Instance of C3 on a concrete aggregated row. -/
theorem c3_identifier_format_witness :
    (⟨2, 3, 7, "x", "2-3"⟩ : NewRow).season_episode
      = toString (⟨2, 3, 7, "x", "2-3"⟩ : NewRow).book_num ++ "-"
        ++ toString (⟨2, 3, 7, "x", "2-3"⟩ : NewRow).chapter_num :=
  c3_identifier_format idRows _ (by decide)

/-- C5: on the spec's two-row example scenario the aggregator produces two
rows with identifiers "1-1" and "1-2", and the normalizer yields
"hello world" and "goodbye world" in that order. -/
theorem c5_example_scenario :
    new_df exampleRows =
      [⟨1, 1, rat_8_5, "Hello world.", "1-1"⟩,
       ⟨1, 2, 9, "Goodbye world.", "1-2"⟩]
    ∧ filtered_text ((new_df exampleRows).map (·.character_words))
        = ["hello world", "goodbye world"] := by
  constructor
  · decide
  · decide

/-- A list of nonpositive rationals sums to a nonpositive value. -/
theorem list_sum_nonpos : ∀ l : List Rat, (∀ x ∈ l, x ≤ 0) → l.sum ≤ 0
  | [], _ => le_refl 0
  | x :: l, h => by
    rw [List.sum_cons]
    have h1 : x ≤ 0 := h x (by simp)
    have h2 : l.sum ≤ 0 := list_sum_nonpos l (fun y hy => h y (by simp [hy]))
    linarith

/-- Range facts for the modelled polarity scorer. -/
theorem polarity_scores_bounds (t : String) :
    0 ≤ (polarity_scores t).neg ∧ (polarity_scores t).neg ≤ 1 ∧
    0 ≤ (polarity_scores t).neu ∧ (polarity_scores t).neu ≤ 1 ∧
    0 ≤ (polarity_scores t).pos ∧ (polarity_scores t).pos ≤ 1 ∧
    -1 ≤ (polarity_scores t).compound ∧ (polarity_scores t).compound ≤ 1 := by
  unfold polarity_scores
  by_cases hempty : ((pyTokens t).map lexValence).isEmpty
  · simp [hempty]
  · rw [Bool.not_eq_true] at hempty
    simp only [hempty, Bool.false_eq_true, if_false]
    set vals := (pyTokens t).map lexValence with hvals
    set P := ((vals.filter fun v => decide (0 < v)).map (fun v => v + 1)).sum with hP
    set N := ((vals.filter fun v => decide (v < 0)).map (fun v => v - 1)).sum with hN
    set C := (((vals.filter fun v => decide (v = 0)).length : Nat) : Rat) with hC
    set S := vals.sum with hS
    have hPpos : 0 ≤ P := by
      refine List.sum_nonneg ?_
      intro x hx
      rcases List.mem_map.mp hx with ⟨v, hv, rfl⟩
      have : 0 < v := of_decide_eq_true (List.mem_filter.mp hv).2
      linarith
    have hNneg : N ≤ 0 := by
      refine list_sum_nonpos _ ?_
      intro x hx
      rcases List.mem_map.mp hx with ⟨v, hv, rfl⟩
      have : v < 0 := of_decide_eq_true (List.mem_filter.mp hv).2
      linarith
    have hCpos : (0 : Rat) ≤ C := by positivity
    have htot : 0 ≤ P + |N| + C := by
      have := abs_nonneg N
      linarith
    have habs : |P + |N| + C| = P + |N| + C := abs_of_nonneg htot
    refine ⟨abs_nonneg _, ?_, abs_nonneg _, ?_, abs_nonneg _, ?_, ?_, ?_⟩
    · rw [abs_div, habs]
      refine div_le_one_of_le₀ ?_ htot
      have := abs_nonneg N
      linarith
    · rw [abs_div, habs]
      refine div_le_one_of_le₀ ?_ htot
      have h1 : |C| = C := abs_of_nonneg hCpos
      have := abs_nonneg N
      linarith [h1.le, h1.ge]
    · rw [abs_div, habs]
      refine div_le_one_of_le₀ ?_ htot
      have h1 : |P| = P := abs_of_nonneg hPpos
      have := abs_nonneg N
      linarith [h1.le, h1.ge]
    · have hd : (0 : Rat) < |S| + 1 := by positivity
      rw [le_div_iff₀ hd]
      have := neg_abs_le S
      linarith
    · have hd : (0 : Rat) < |S| + 1 := by positivity
      rw [div_le_one hd]
      have := le_abs_self S
      linarith

/-- C7: every row of the sentiment table has negative, neutral and
positive scores in [0,1] and a compound score in [-1,1]. -/
theorem c7_polarity_range (texts : List String) (i : Nat)
    (h : i < (sentiment_data texts).length) :
    0 ≤ ((sentiment_data texts).get ⟨i, h⟩).negative_score ∧
    ((sentiment_data texts).get ⟨i, h⟩).negative_score ≤ 1 ∧
    0 ≤ ((sentiment_data texts).get ⟨i, h⟩).neutral_score ∧
    ((sentiment_data texts).get ⟨i, h⟩).neutral_score ≤ 1 ∧
    0 ≤ ((sentiment_data texts).get ⟨i, h⟩).positive_score ∧
    ((sentiment_data texts).get ⟨i, h⟩).positive_score ≤ 1 ∧
    -1 ≤ ((sentiment_data texts).get ⟨i, h⟩).compound_score ∧
    ((sentiment_data texts).get ⟨i, h⟩).compound_score ≤ 1 := by
  have hi : i < texts.enum.length := by simpa [sentiment_data] using h
  have hrow : (sentiment_data texts).get ⟨i, h⟩ =
      { id := (texts.enum.get ⟨i, hi⟩).1
        negative_score := (polarity_scores (texts.enum.get ⟨i, hi⟩).2).neg
        neutral_score := (polarity_scores (texts.enum.get ⟨i, hi⟩).2).neu
        positive_score := (polarity_scores (texts.enum.get ⟨i, hi⟩).2).pos
        compound_score := (polarity_scores (texts.enum.get ⟨i, hi⟩).2).compound
        character_words := (texts.enum.get ⟨i, hi⟩).2 } := by
    simp [sentiment_data]
  rw [hrow]
  exact polarity_scores_bounds _

/-- Instance of C7 at the one-text input `["hello"]`. -/
theorem c7_polarity_range_witness :
    0 ≤ ((sentiment_data ["hello"]).get ⟨0, by decide⟩).negative_score ∧
    ((sentiment_data ["hello"]).get ⟨0, by decide⟩).negative_score ≤ 1 ∧
    0 ≤ ((sentiment_data ["hello"]).get ⟨0, by decide⟩).neutral_score ∧
    ((sentiment_data ["hello"]).get ⟨0, by decide⟩).neutral_score ≤ 1 ∧
    0 ≤ ((sentiment_data ["hello"]).get ⟨0, by decide⟩).positive_score ∧
    ((sentiment_data ["hello"]).get ⟨0, by decide⟩).positive_score ≤ 1 ∧
    -1 ≤ ((sentiment_data ["hello"]).get ⟨0, by decide⟩).compound_score ∧
    ((sentiment_data ["hello"]).get ⟨0, by decide⟩).compound_score ≤ 1 :=
  c7_polarity_range ["hello"] 0 (by decide)

/-- A positional column assignment keeps the shorter of the two lengths. -/
theorem length_addCol (t : List α) (c : List β) :
    (addCol t c).length = min t.length c.length :=
  List.length_zip t c

/-- C4: the final table is assembled purely by positional index — row i
combines the i-th polarity row, the i-th valence/arousal/description row,
and the imdb_rating and book_num of the i-th aggregator row; no join key
is involved. -/
theorem c4_merger_positional (s : List SentimentRow) (o : List OtherRow)
    (n : List NewRow) (i : Nat)
    (h1 : i < s.length) (h2 : i < o.length) (h3 : i < n.length) :
    (finalTable s o n)[i]? = some
      { id := (s.get ⟨i, h1⟩).id
        negative_score := (s.get ⟨i, h1⟩).negative_score
        neutral_score := (s.get ⟨i, h1⟩).neutral_score
        positive_score := (s.get ⟨i, h1⟩).positive_score
        compound_score := (s.get ⟨i, h1⟩).compound_score
        character_words := (s.get ⟨i, h1⟩).character_words
        arousal_score := (o.get ⟨i, h2⟩).arousal
        valence_score := (o.get ⟨i, h2⟩).valence
        description := (o.get ⟨i, h2⟩).description
        imdb_rating := (n.get ⟨i, h3⟩).imdb_rating
        season := (n.get ⟨i, h3⟩).book_num } := by
  have hlen : i < (finalTable s o n).length := by
    simp [finalTable, addCol, List.length_zip]
    omega
  rw [List.getElem?_eq_getElem hlen]
  simp [finalTable, addCol, List.getElem_zip, List.getElem_map, List.get_eq_getElem]

/-- Instance of C4 on concrete one-row intermediate tables. -/
theorem c4_merger_positional_witness :
    (finalTable [mergeS] [mergeO] [mergeN])[0]? = some
      { id := ([mergeS].get ⟨0, by decide⟩).id
        negative_score := ([mergeS].get ⟨0, by decide⟩).negative_score
        neutral_score := ([mergeS].get ⟨0, by decide⟩).neutral_score
        positive_score := ([mergeS].get ⟨0, by decide⟩).positive_score
        compound_score := ([mergeS].get ⟨0, by decide⟩).compound_score
        character_words := ([mergeS].get ⟨0, by decide⟩).character_words
        arousal_score := ([mergeO].get ⟨0, by decide⟩).arousal
        valence_score := ([mergeO].get ⟨0, by decide⟩).valence
        description := ([mergeO].get ⟨0, by decide⟩).description
        imdb_rating := ([mergeN].get ⟨0, by decide⟩).imdb_rating
        season := ([mergeN].get ⟨0, by decide⟩).book_num } :=
  c4_merger_positional [mergeS] [mergeO] [mergeN] 0 (by decide) (by decide) (by decide)

/-- C9: each aggregator output row's text blob is the concatenation, in
source row order and with no separator character, of the texts of the
input rows sharing its key. -/
theorem c9_concat_no_separator (rows : List AvatarRow) (i : Nat)
    (h : i < (new_df rows).length) :
    ((new_df rows).get ⟨i, h⟩).character_words
      = String.join (((rows.filter fun r =>
          decide (rowKey r = (((new_df rows).get ⟨i, h⟩).book_num,
                              ((new_df rows).get ⟨i, h⟩).chapter_num,
                              ((new_df rows).get ⟨i, h⟩).imdb_rating))).map
            (·.character_words))) := by
  have h2 : i < (sortKeys ((rows.map rowKey).dedup)).length := by
    simpa [new_df] using h
  have hget : (new_df rows).get ⟨i, h⟩ =
      mkNewRow rows ((sortKeys ((rows.map rowKey).dedup)).get ⟨i, h2⟩) := by
    simp [new_df]
  rw [hget]
  rfl

/-- Instance of C9: `"hello"` and `"world"` of one episode fuse into the
single token `"helloworld"`. -/
theorem c9_concat_no_separator_witness :
    ((new_df fuseRows).get ⟨0, by decide⟩).character_words = "helloworld" :=
  (c9_concat_no_separator fuseRows 0 (by decide)).trans (by decide)

/-- C10: the arousal/valence stage resolves the never-defined name `s`,
so on every input with at least one cleaned text row the run faults with
an unbound-name error and the final merged table is never produced. -/
theorem c10_unbound_name_crash (rows : List AvatarRow)
    (h : pipelineTexts rows ≠ []) :
    pipeline rows = .error nameErrorS := by
  cases htex : pipelineTexts rows with
  | nil => exact absurd htex h
  | cons t rest => simp [pipeline, htex, other_data, sBinding]

/-- Instance of C10 on a one-row input that reaches the stage. -/
theorem c10_unbound_name_crash_witness :
    pipeline crashRows = .error nameErrorS :=
  c10_unbound_name_crash crashRows (by decide)

/-- C8 as stated is false: the emitted CSV's header is not exactly the
five data columns — pandas prepends the unnamed positional index column. -/
theorem c8_columns_counterexample :
    ¬ ((csvRecords (new_df stopwordRows)).head? =
        some ["book_num", "chapter_num", "imdb_rating", "character_words",
              "season-episode"]) := by decide

/-- C8 (amended): each run writes `new.df.csv`, unconditionally replacing
any existing file of that name, and its header is an unnamed index column
followed by exactly book_num, chapter_num, imdb_rating, character_words,
season-episode. -/
theorem c8_output_file_amended (fs : FileSys) (rows : List AvatarRow) :
    saveStep fs rows "new.df.csv" = some (csvRecords (new_df rows)) ∧
    (csvRecords (new_df rows)).head? =
      some ["", "book_num", "chapter_num", "imdb_rating", "character_words",
            "season-episode"] := by
  constructor
  · simp [saveStep, writeCsv]
  · rfl
